import Mathlib

/-!
Verification development for the cinetrack client-side persistence layer
(`src/js/storage.js`) and its UI call sites (`src/js/main.js`,
`src/js/details.js`) together with the debounced search handler
(`src/js/main.js` / `src/js/utils.js`).

The JavaScript code is shallowly embedded: JS primitive values become the
inductive `JSVal` (with JS strict equality `===` and JS truthiness), JS
objects become association lists of string-keyed fields (`Obj`, property
access `getF` returning `undefined` for absent fields), and `localStorage`
becomes an explicit `Medium` state holding, per string key, either no entry,
text that is not valid JSON, or a parsed JSON value.  Functions that may
throw a `TypeError` in JS (array methods invoked on a non-array value
produced by `JSON.parse`) return `Except Unit`.
-/

deriving instance DecidableEq for Except

namespace Cinetrack

/-- A JS primitive value as used by the storage layer: ids are numbers or
strings, `media_type` is a string or `undefined`, optional fields may be
`null` or `undefined`. -/
inductive JSVal where
  | vnum (n : Int)
  | vstr (s : String)
  | vnull
  | vundef
deriving DecidableEq, Repr

/-- JS strict equality `===` on primitive values: no coercion across types. -/
def JSVal.strictEq : JSVal → JSVal → Bool
  | .vnum a, .vnum b => decide (a = b)
  | .vstr a, .vstr b => decide (a = b)
  | .vnull, .vnull => true
  | .vundef, .vundef => true
  | _, _ => false

/-- JS truthiness of a primitive value: `0`, `""`, `null`, `undefined` are
falsy. -/
def JSVal.truthy : JSVal → Bool
  | .vnum n => decide (n ≠ 0)
  | .vstr s => decide (s ≠ "")
  | .vnull => false
  | .vundef => false

/-- JS `a || b` on primitive values: returns `a` if truthy, else `b`. -/
def jsOr (a b : JSVal) : JSVal := if a.truthy then a else b

/-- A JS object: an ordered association list of string-keyed fields. -/
abbrev Obj := List (String × JSVal)

/-- JS property access `o.k`: the value of the first field named `k`, or
`undefined` when the object has no such field. -/
def getF (o : Obj) (k : String) : JSVal :=
  match o with
  | [] => .vundef
  | (k', v) :: rest => if k' == k then v else getF rest k

/-- A parsed JSON value as returned by `JSON.parse`, classified by whether it
is an array of objects (the shape every list write produces) or any other
JSON value (number, string, boolean, null, plain object); the payload of
`nonArray` is a representative primitive. -/
inductive JsonVal where
  | arr (l : List Obj)
  | nonArray (v : JSVal)
deriving DecidableEq, Repr

/-- The content of one `localStorage` entry: no entry (`getItem` returns
`null`), text that is not valid JSON (`JSON.parse` throws), or text that
parses to a JSON value. -/
inductive StoredValue where
  | absent
  | malformed
  | json (v : JsonVal)
deriving DecidableEq, Repr

/-- The `localStorage` medium: whether the probe in `isStorageAvailable`
succeeds, whether a real `setItem` write succeeds (quota), and the key-value
store itself. -/
structure Medium where
  available : Bool
  writeOk : Bool
  store : List (String × StoredValue)
deriving DecidableEq, Repr

/-- Read a key from the raw key-value store. -/
def storeGet : List (String × StoredValue) → String → StoredValue
  | [], _ => .absent
  | (k', v) :: rest, k => if k' == k then v else storeGet rest k

/-- Write a key into the raw key-value store. -/
def storeSet : List (String × StoredValue) → String → StoredValue → List (String × StoredValue)
  | [], k, v => [(k, v)]
  | (k', v') :: rest, k, v => if k' == k then (k, v) :: rest else (k', v') :: storeSet rest k v

def Medium.getRaw (m : Medium) (k : String) : StoredValue := storeGet m.store k

def Medium.setRaw (m : Medium) (k : String) (v : StoredValue) : Medium :=
  { m with store := storeSet m.store k v }

/-- `KEYS.WATCHLIST` from storage.js. -/
def KEYS_WATCHLIST : String := "cinetrack_watchlist"
/-- `KEYS.FAVORITES` from storage.js. -/
def KEYS_FAVORITES : String := "cinetrack_favorites"
/-- `KEYS.WATCHED` from storage.js. -/
def KEYS_WATCHED : String := "cinetrack_watched"

/-- `getItems(key)` from storage.js: `[]` when the medium is unavailable,
when there is no entry, or when `JSON.parse` throws; otherwise the parsed
JSON value, whatever its shape. -/
def getItems (m : Medium) (key : String) : JsonVal :=
  if !m.available then .arr []
  else
    match m.getRaw key with
    | .absent => .arr []
    | .malformed => .arr []
    | .json v => v

/-- `saveItems(key, items)` from storage.js: reports failure without writing
when the medium is unavailable or `setItem` throws; otherwise replaces the
entry with the serialized array and reports success. -/
def saveItems (m : Medium) (key : String) (items : List Obj) : Bool × Medium :=
  if !m.available then (false, m)
  else if !m.writeOk then (false, m)
  else (true, m.setRaw key (.json (.arr items)))

/-- JS array dispatch: `.find`/`.filter`/`.some` succeed only on an array;
on any other value they throw a `TypeError`, modelled as `none`. -/
def asArr : JsonVal → Option (List Obj)
  | .arr l => some l
  | .nonArray _ => none

/-- The membership predicate used by every `find`/`filter`/`some` call in
storage.js: `i.id === id && i.media_type === mediaType`. -/
def keyMatches (i : Obj) (id mediaType : JSVal) : Bool :=
  JSVal.strictEq (getF i "id") id && JSVal.strictEq (getF i "media_type") mediaType

/-- The record pushed by `addToWatchlist` (and, with the same shape, by
`addToFavorites`); `now` stands for `new Date().toISOString()`. -/
def watchlistRecord (item : Obj) (now : String) : Obj :=
  [("id", getF item "id"),
   ("title", jsOr (getF item "title") (getF item "name")),
   ("poster_path", getF item "poster_path"),
   ("media_type", getF item "media_type"),
   ("vote_average", getF item "vote_average"),
   ("added_date", .vstr now)]

/-- The record pushed by `addToFavorites` (same shape as the watchlist one). -/
def favoritesRecord (item : Obj) (now : String) : Obj :=
  watchlistRecord item now

/-- The record pushed by `addToWatched`: no `poster_path`/`vote_average`,
and `watched_date` instead of `added_date`. -/
def watchedRecord (item : Obj) (now : String) : Obj :=
  [("id", getF item "id"),
   ("title", jsOr (getF item "title") (getF item "name")),
   ("media_type", getF item "media_type"),
   ("watched_date", .vstr now)]

/-- Common shape of `addToWatchlist`/`addToFavorites`/`addToWatched`:
load, duplicate check by Identity Key, push, save. -/
def addCore (key : String) (mk : Obj → String → Obj) (item : Obj) (now : String)
    (m : Medium) : Except Unit (Bool × Medium) :=
  match asArr (getItems m key) with
  | none => .error ()
  | some l =>
    if l.any (fun i => keyMatches i (getF item "id") (getF item "media_type"))
    then .ok (false, m)
    else .ok (saveItems m key (l ++ [mk item now]))

/-- Common shape of `removeFromWatchlist`/`removeFromFavorites`: load,
filter out every record matching the Identity Key, save. -/
def removeCore (key : String) (id mediaType : JSVal) (m : Medium) :
    Except Unit (Bool × Medium) :=
  match asArr (getItems m key) with
  | none => .error ()
  | some l => .ok (saveItems m key (l.filter (fun i => !(keyMatches i id mediaType))))

/-- Common shape of `isInWatchlist`/`isInFavorites`/`isWatched`: load and
test membership by Identity Key. -/
def containsCore (key : String) (id mediaType : JSVal) (m : Medium) : Except Unit Bool :=
  match asArr (getItems m key) with
  | none => .error ()
  | some l => .ok (l.any (fun i => keyMatches i id mediaType))

/-- `getWatchlist()` from storage.js. -/
def getWatchlist (m : Medium) : JsonVal := getItems m KEYS_WATCHLIST
/-- `getFavorites()` from storage.js. -/
def getFavorites (m : Medium) : JsonVal := getItems m KEYS_FAVORITES
/-- `getWatched()` from storage.js. -/
def getWatched (m : Medium) : JsonVal := getItems m KEYS_WATCHED

/-- `addToWatchlist(item)` from storage.js. -/
def addToWatchlist (item : Obj) (now : String) (m : Medium) : Except Unit (Bool × Medium) :=
  addCore KEYS_WATCHLIST watchlistRecord item now m

/-- `removeFromWatchlist(id, mediaType)` from storage.js. -/
def removeFromWatchlist (id mediaType : JSVal) (m : Medium) : Except Unit (Bool × Medium) :=
  removeCore KEYS_WATCHLIST id mediaType m

/-- `isInWatchlist(id, mediaType)` from storage.js. -/
def isInWatchlist (id mediaType : JSVal) (m : Medium) : Except Unit Bool :=
  containsCore KEYS_WATCHLIST id mediaType m

/-- `addToFavorites(item)` from storage.js. -/
def addToFavorites (item : Obj) (now : String) (m : Medium) : Except Unit (Bool × Medium) :=
  addCore KEYS_FAVORITES favoritesRecord item now m

/-- `removeFromFavorites(id, mediaType)` from storage.js. -/
def removeFromFavorites (id mediaType : JSVal) (m : Medium) : Except Unit (Bool × Medium) :=
  removeCore KEYS_FAVORITES id mediaType m

/-- `isInFavorites(id, mediaType)` from storage.js. -/
def isInFavorites (id mediaType : JSVal) (m : Medium) : Except Unit Bool :=
  containsCore KEYS_FAVORITES id mediaType m

/-- `addToWatched(item)` from storage.js. -/
def addToWatched (item : Obj) (now : String) (m : Medium) : Except Unit (Bool × Medium) :=
  addCore KEYS_WATCHED watchedRecord item now m

/-- `isWatched(id, mediaType)` from storage.js; storage.js has no
`removeFromWatched`. -/
def isWatched (id mediaType : JSVal) (m : Medium) : Except Unit Bool :=
  containsCore KEYS_WATCHED id mediaType m

/-- The record sequence a caller observes for a list key: the loaded array,
or `[]` when the loaded value is not an array. -/
def itemsOf (m : Medium) (key : String) : List Obj := (asArr (getItems m key)).getD []

/-- A stored entry is well formed when it is not JSON text of a non-array
value (the only shape on which the array methods of the callers throw). -/
def svWF : StoredValue → Bool
  | .json (.nonArray _) => false
  | _ => true

/-- The three list entries of the medium are well formed. -/
def Medium.WF (m : Medium) : Bool :=
  svWF (m.getRaw KEYS_WATCHLIST) && svWF (m.getRaw KEYS_FAVORITES) &&
    svWF (m.getRaw KEYS_WATCHED)

/-- Two records carry the same Identity Key `(id, media_type)` under JS
strict equality. -/
def sameKey (a b : Obj) : Bool := keyMatches a (getF b "id") (getF b "media_type")

/-- A record constructor preserves the Identity Key of the input item. -/
def keyFaithful (mk : Obj → String → Obj) : Prop :=
  ∀ it n, getF (mk it n) "id" = getF it "id" ∧
    getF (mk it n) "media_type" = getF it "media_type"

/-- No two records of the list share an Identity Key. -/
def uniqueKeys : List Obj → Bool
  | [] => true
  | r :: rs => !(rs.any (fun i => sameKey i r)) && uniqueKeys rs

/-- Run a sequence of add calls — an item and its insertion timestamp per
call — against one list. -/
def runAddsCore (key : String) (mk : Obj → String → Obj) :
    List (Obj × String) → Medium → Medium
  | [], m => m
  | (item, now) :: rest, m =>
    match addCore key mk item now m with
    | .ok (_, m') => runAddsCore key mk rest m'
    | .error _ => runAddsCore key mk rest m

/-- A sequence of `addToWatchlist` calls. -/
def runAddsWatchlist : List (Obj × String) → Medium → Medium :=
  runAddsCore KEYS_WATCHLIST watchlistRecord

/-- A sequence of `addToFavorites` calls. -/
def runAddsFavorites : List (Obj × String) → Medium → Medium :=
  runAddsCore KEYS_FAVORITES favoritesRecord

/-- A sequence of `addToWatched` calls. -/
def runAddsWatched : List (Obj × String) → Medium → Medium :=
  runAddsCore KEYS_WATCHED watchedRecord

/-! ### UI toggle handlers

`handleWatchlistToggle`/`handleFavoriteToggle` come from main.js,
`toggleWatchlist`/`toggleFavorite`/`toggleWatched` from details.js.  The
returned `Bool` (or `Option Bool`) is the displayed affordance state the
handler leaves on the button: main.js adds/removes the `active` class and
details.js calls `updateButtonState`, in every branch without inspecting
the result of the underlying storage mutation. -/

/-- The common shape of the four watchlist/favorites toggle handlers: query
membership with key `(qid, qmt)`; when present remove and display inactive,
otherwise add `item` and display active — in both branches the displayed
state is set without inspecting the boolean the mutation returned. -/
def toggleCore (key : String) (mk : Obj → String → Obj) (qid qmt : JSVal) (item : Obj)
    (now : String) (m : Medium) : Except Unit (Bool × Medium) :=
  match containsCore key qid qmt m with
  | .error e => .error e
  | .ok inList =>
    if inList then
      match removeCore key qid qmt m with
      | .error e => .error e
      | .ok (_, m') => .ok (false, m')
    else
      match addCore key mk item now m with
      | .error e => .error e
      | .ok (_, m') => .ok (true, m')

/-- `handleWatchlistToggle(item, button, card)` from main.js: queries and
removes with `(item.id, item.media_type)` and adds `item` itself. -/
def handleWatchlistToggle (item : Obj) (now : String) (m : Medium) :
    Except Unit (Bool × Medium) :=
  toggleCore KEYS_WATCHLIST watchlistRecord (getF item "id") (getF item "media_type")
    item now m

/-- `handleFavoriteToggle(item, button, card)` from main.js. -/
def handleFavoriteToggle (item : Obj) (now : String) (m : Medium) :
    Except Unit (Bool × Medium) :=
  toggleCore KEYS_FAVORITES favoritesRecord (getF item "id") (getF item "media_type")
    item now m

/-- The item object built by `toggleWatchlist`/`toggleFavorite` in
details.js from the fetched `data` and the page's `mediaType`; its `id`
field is `data.id`. -/
def detailsItem (data : Obj) (mediaType : JSVal) : Obj :=
  [("id", getF data "id"),
   ("title", jsOr (getF data "title") (getF data "name")),
   ("poster_path", getF data "poster_path"),
   ("media_type", mediaType),
   ("vote_average", getF data "vote_average")]

/-- `toggleWatchlist(data, mediaType, button)` from details.js: queries and
removes with `(data.id, mediaType)` and adds the projected item. -/
def toggleWatchlist (data : Obj) (mediaType : JSVal) (now : String) (m : Medium) :
    Except Unit (Bool × Medium) :=
  toggleCore KEYS_WATCHLIST watchlistRecord (getF data "id") mediaType
    (detailsItem data mediaType) now m

/-- `toggleFavorite(data, mediaType, button)` from details.js. -/
def toggleFavorite (data : Obj) (mediaType : JSVal) (now : String) (m : Medium) :
    Except Unit (Bool × Medium) :=
  toggleCore KEYS_FAVORITES favoritesRecord (getF data "id") mediaType
    (detailsItem data mediaType) now m

/-- The item object built by `toggleWatched` in details.js. -/
def watchedItem (data : Obj) (mediaType : JSVal) : Obj :=
  [("id", getF data "id"),
   ("title", jsOr (getF data "title") (getF data "name")),
   ("media_type", mediaType)]

/-- `toggleWatched(data, mediaType, button)` from details.js: only the
not-yet-watched branch exists; when already watched nothing happens and the
button is untouched (`none`). -/
def toggleWatched (data : Obj) (mediaType : JSVal) (now : String) (m : Medium) :
    Except Unit (Option Bool × Medium) :=
  match isWatched (getF data "id") mediaType m with
  | .error e => .error e
  | .ok watched =>
    if watched then .ok (none, m)
    else
      match addToWatched (watchedItem data mediaType) now m with
      | .error e => .error e
      | .ok (_, m') => .ok (some true, m')

/-- One user action through the exposed toggle interface. -/
inductive UIOp where
  | wlMain (item : Obj) (now : String)
  | favMain (item : Obj) (now : String)
  | wlDetails (data : Obj) (mediaType : JSVal) (now : String)
  | favDetails (data : Obj) (mediaType : JSVal) (now : String)
  | watchedDetails (data : Obj) (mediaType : JSVal) (now : String)

/-- The medium after one exposed toggle action; a thrown `TypeError` aborts
the handler, leaving the medium as it was. -/
def stepUI : UIOp → Medium → Medium
  | .wlMain item now, m =>
    match handleWatchlistToggle item now m with
    | .ok (_, m') => m'
    | .error _ => m
  | .favMain item now, m =>
    match handleFavoriteToggle item now m with
    | .ok (_, m') => m'
    | .error _ => m
  | .wlDetails data mediaType now, m =>
    match toggleWatchlist data mediaType now m with
    | .ok (_, m') => m'
    | .error _ => m
  | .favDetails data mediaType now, m =>
    match toggleFavorite data mediaType now m with
    | .ok (_, m') => m'
    | .error _ => m
  | .watchedDetails data mediaType now, m =>
    match toggleWatched data mediaType now m with
    | .ok (_, m') => m'
    | .error _ => m

/-- A sequence of exposed toggle actions. -/
def runUI : List UIOp → Medium → Medium
  | [], m => m
  | op :: rest, m => runUI rest (stepUI op m)

/-! ### The debounced search handler

`handleSearchInput` (main.js) clears any pending `setTimeout` and schedules
`handleSearch(query)` 300 ms later.  The event-loop semantics below
processes timestamped keystroke events in order: a pending timer whose fire
time has been reached fires before the next keystroke is handled; otherwise
the keystroke cancels it.  Each execution is recorded as (time of the
keystroke that scheduled it, fire time, query). -/

/-- The debounce wait of `handleSearchInput`: `setTimeout(..., 300)`. -/
def SEARCH_DEBOUNCE_WAIT : Nat := 300

/-- Process keystroke events `(time, query)` with an optional pending timer
`(scheduledAt, fireTime, query)`; returns the search executions that fire. -/
def debounceRun (wait : Nat) :
    List (Nat × String) → Option (Nat × Nat × String) → List (Nat × Nat × String)
  | [], none => []
  | [], some p => [p]
  | (t, q) :: rest, none => debounceRun wait rest (some (t, t + wait, q))
  | (t, q) :: rest, some (te, tf, qp) =>
    if tf ≤ t then (te, tf, qp) :: debounceRun wait rest (some (t, t + wait, q))
    else debounceRun wait rest (some (t, t + wait, q))

/-- The executions produced by feeding keystrokes to `handleSearchInput`
starting with no pending timer. -/
def runHandleSearchInput (events : List (Nat × String)) : List (Nat × Nat × String) :=
  debounceRun SEARCH_DEBOUNCE_WAIT events none

/-! ### Concrete inputs used by witnesses and counterexamples -/

/-- A catalog item as the UI passes it to the storage layer, with a field
(`overview`) that the projection must ignore. -/
def itemA : Obj :=
  [("id", .vnum 550), ("media_type", .vstr "movie"), ("title", .vstr "Fight Club"),
   ("vote_average", .vnum 8), ("overview", .vstr "An insomniac office worker...")]

/-- A TV item with no `title`, exercising the `title || name` fallback. -/
def itemB : Obj :=
  [("id", .vnum 1399), ("media_type", .vstr "tv"), ("name", .vstr "Game of Thrones")]

/-- An empty, fully working medium. -/
def freshMedium : Medium := ⟨true, true, []⟩

/-- The medium after `addToWatchlist itemA "t1" freshMedium`. -/
def mediumA : Medium :=
  ⟨true, true, [(KEYS_WATCHLIST, .json (.arr [watchlistRecord itemA "t1"]))]⟩

/-- A medium whose watchlist entry is valid JSON but not an array: the text
`"42"` parses to the number `42`. -/
def mediumNonArray : Medium :=
  ⟨true, true, [(KEYS_WATCHLIST, .json (.nonArray (.vnum 42)))]⟩

/-- The medium after `addToWatchlist itemB "t1" freshMedium`. -/
def mediumB : Medium :=
  ⟨true, true, [(KEYS_WATCHLIST, .json (.arr [watchlistRecord itemB "t1"]))]⟩

/-- An item whose id is the string `"550"`, not the number `550`. -/
def itemC : Obj :=
  [("id", .vstr "550"), ("media_type", .vstr "movie"), ("title", .vstr "Impostor")]

/-- A medium whose watched list holds `itemA`. -/
def mediumW : Medium :=
  ⟨true, true, [(KEYS_WATCHED, .json (.arr [watchedRecord itemA "t1"]))]⟩

/-- The medium after `removeFromWatchlist` writes an empty array. -/
def mediumEmptyWL : Medium := ⟨true, true, [(KEYS_WATCHLIST, .json (.arr []))]⟩

/-- A medium where `localStorage` is unavailable. -/
def mediumUnavailable : Medium := ⟨false, true, []⟩

/-- An available medium whose writes fail (quota exceeded), watchlist empty. -/
def mediumQuota : Medium := ⟨true, false, []⟩

/-! ### Basic lemmas about the medium and the store core -/

lemma storeGet_storeSet_self (s : List (String × StoredValue)) (k : String) (v : StoredValue) :
    storeGet (storeSet s k v) k = v := by
  induction s with
  | nil => simp [storeSet, storeGet]
  | cons hd tl ih =>
    obtain ⟨k', v'⟩ := hd
    by_cases h : k' = k
    · subst h; simp [storeSet, storeGet]
    · simp [storeSet, storeGet, h, ih]

lemma storeGet_storeSet_ne (s : List (String × StoredValue)) {k k' : String}
    (v : StoredValue) (h : k ≠ k') : storeGet (storeSet s k v) k' = storeGet s k' := by
  induction s with
  | nil => simp [storeSet, storeGet, h]
  | cons hd tl ih =>
    obtain ⟨k₀, v₀⟩ := hd
    by_cases h0 : k₀ = k
    · subst h0; simp [storeSet, storeGet, h]
    · simp [storeSet, storeGet, h0, ih]

@[simp] lemma setRaw_available (m : Medium) (k : String) (v : StoredValue) :
    (m.setRaw k v).available = m.available := rfl

@[simp] lemma setRaw_writeOk (m : Medium) (k : String) (v : StoredValue) :
    (m.setRaw k v).writeOk = m.writeOk := rfl

lemma getRaw_setRaw_self (m : Medium) (k : String) (v : StoredValue) :
    (m.setRaw k v).getRaw k = v := storeGet_storeSet_self _ _ _

lemma getRaw_setRaw_ne (m : Medium) {k k' : String} (v : StoredValue) (h : k ≠ k') :
    (m.setRaw k v).getRaw k' = m.getRaw k' := storeGet_storeSet_ne _ _ h

lemma saveItems_of_fail {m : Medium} (key : String) (l : List Obj)
    (h : (m.available && m.writeOk) = false) : saveItems m key l = (false, m) := by
  unfold saveItems
  cases ha : m.available <;> cases hw : m.writeOk <;>
    simp_all [ha, hw]

lemma saveItems_of_ok {m : Medium} (key : String) (l : List Obj)
    (ha : m.available = true) (hw : m.writeOk = true) :
    saveItems m key l = (true, m.setRaw key (.json (.arr l))) := by
  unfold saveItems
  simp [ha, hw]

lemma saveItems_fst (m : Medium) (key : String) (l : List Obj) :
    (saveItems m key l).1 = (m.available && m.writeOk) := by
  cases h : (m.available && m.writeOk) with
  | false => rw [saveItems_of_fail key l h]
  | true =>
    obtain ⟨ha, hw⟩ := Bool.and_eq_true_iff.mp h
    rw [saveItems_of_ok key l ha hw]

lemma saveItems_available (m : Medium) (key : String) (l : List Obj) :
    (saveItems m key l).2.available = m.available := by
  cases h : (m.available && m.writeOk) with
  | false => rw [saveItems_of_fail key l h]
  | true =>
    obtain ⟨ha, hw⟩ := Bool.and_eq_true_iff.mp h
    rw [saveItems_of_ok key l ha hw, setRaw_available]

lemma saveItems_writeOk (m : Medium) (key : String) (l : List Obj) :
    (saveItems m key l).2.writeOk = m.writeOk := by
  cases h : (m.available && m.writeOk) with
  | false => rw [saveItems_of_fail key l h]
  | true =>
    obtain ⟨ha, hw⟩ := Bool.and_eq_true_iff.mp h
    rw [saveItems_of_ok key l ha hw, setRaw_writeOk]

lemma saveItems_getRaw_ne (m : Medium) {key k' : String} (l : List Obj) (h : key ≠ k') :
    (saveItems m key l).2.getRaw k' = m.getRaw k' := by
  cases hb : (m.available && m.writeOk) with
  | false => rw [saveItems_of_fail key l hb]
  | true =>
    obtain ⟨ha, hw⟩ := Bool.and_eq_true_iff.mp hb
    rw [saveItems_of_ok key l ha hw]
    exact getRaw_setRaw_ne m _ h

lemma asArr_getItems_of_WF {m : Medium} {key : String} (h : svWF (m.getRaw key) = true) :
    asArr (getItems m key) = some (itemsOf m key) := by
  unfold itemsOf getItems
  cases ha : m.available with
  | false => simp [asArr]
  | true =>
    cases hr : m.getRaw key with
    | absent => simp [asArr]
    | malformed => simp [asArr]
    | json v =>
      cases v with
      | arr l => simp [asArr]
      | nonArray w => rw [hr] at h; simp [svWF] at h

lemma getItems_congr {m m' : Medium} {k : String} (ha : m'.available = m.available)
    (hr : m'.getRaw k = m.getRaw k) : getItems m' k = getItems m k := by
  unfold getItems
  rw [ha, hr]

lemma itemsOf_congr {m m' : Medium} {k : String} (ha : m'.available = m.available)
    (hr : m'.getRaw k = m.getRaw k) : itemsOf m' k = itemsOf m k := by
  unfold itemsOf
  rw [getItems_congr ha hr]

lemma itemsOf_save_self {m : Medium} (key : String) (l : List Obj)
    (ha : m.available = true) (hw : m.writeOk = true) :
    itemsOf (saveItems m key l).2 key = l := by
  rw [saveItems_of_ok key l ha hw]
  unfold itemsOf getItems
  simp [getRaw_setRaw_self, ha, asArr]

lemma itemsOf_save_ne {m : Medium} {key k' : String} (l : List Obj) (h : key ≠ k') :
    itemsOf (saveItems m key l).2 k' = itemsOf m k' :=
  itemsOf_congr (saveItems_available m key l) (saveItems_getRaw_ne m l h)

lemma svWF_arr (l : List Obj) : svWF (.json (.arr l)) = true := rfl

lemma WF_setRaw_arr {m : Medium} (k : String) (l : List Obj) (h : m.WF = true) :
    (m.setRaw k (.json (.arr l))).WF = true := by
  unfold Medium.WF at h ⊢
  have step : ∀ k₀ : String, svWF (m.getRaw k₀) = true →
      svWF ((m.setRaw k (.json (.arr l))).getRaw k₀) = true := by
    intro k₀ h₀
    by_cases hk : k = k₀
    · subst hk; rw [getRaw_setRaw_self]; exact svWF_arr l
    · rw [getRaw_setRaw_ne m _ hk]; exact h₀
  simp only [Bool.and_eq_true] at h ⊢
  exact ⟨⟨step _ h.1.1, step _ h.1.2⟩, step _ h.2⟩

lemma WF_save {m : Medium} (key : String) (l : List Obj) (h : m.WF = true) :
    (saveItems m key l).2.WF = true := by
  cases hb : (m.available && m.writeOk) with
  | false => rw [saveItems_of_fail key l hb]; exact h
  | true =>
    obtain ⟨ha, hw⟩ := Bool.and_eq_true_iff.mp hb
    rw [saveItems_of_ok key l ha hw]
    exact WF_setRaw_arr key l h

/-! ### Characterizations of the storage operations on well-formed media -/

lemma addCore_eq_of_WF {m : Medium} {key : String} (mk : Obj → String → Obj)
    (item : Obj) (now : String) (h : svWF (m.getRaw key) = true) :
    addCore key mk item now m =
      if (itemsOf m key).any (fun i => keyMatches i (getF item "id") (getF item "media_type"))
      then .ok (false, m)
      else .ok (saveItems m key (itemsOf m key ++ [mk item now])) := by
  unfold addCore
  rw [asArr_getItems_of_WF h]

lemma removeCore_eq_of_WF {m : Medium} {key : String} (id mediaType : JSVal)
    (h : svWF (m.getRaw key) = true) :
    removeCore key id mediaType m =
      .ok (saveItems m key ((itemsOf m key).filter (fun i => !(keyMatches i id mediaType)))) := by
  unfold removeCore
  rw [asArr_getItems_of_WF h]

lemma containsCore_eq_of_WF {m : Medium} {key : String} (id mediaType : JSVal)
    (h : svWF (m.getRaw key) = true) :
    containsCore key id mediaType m =
      .ok ((itemsOf m key).any (fun i => keyMatches i id mediaType)) := by
  unfold containsCore
  rw [asArr_getItems_of_WF h]

lemma WF_watchlist {m : Medium} (h : m.WF = true) : svWF (m.getRaw KEYS_WATCHLIST) = true := by
  unfold Medium.WF at h
  simp only [Bool.and_eq_true] at h
  exact h.1.1

lemma WF_favorites {m : Medium} (h : m.WF = true) : svWF (m.getRaw KEYS_FAVORITES) = true := by
  unfold Medium.WF at h
  simp only [Bool.and_eq_true] at h
  exact h.1.2

lemma WF_watched {m : Medium} (h : m.WF = true) : svWF (m.getRaw KEYS_WATCHED) = true := by
  unfold Medium.WF at h
  simp only [Bool.and_eq_true] at h
  exact h.2

/-! ### Strict equality and Identity-Key matching -/

lemma strictEq_refl (v : JSVal) : JSVal.strictEq v v = true := by
  cases v <;> simp [JSVal.strictEq]

lemma strictEq_symm (a b : JSVal) : JSVal.strictEq a b = JSVal.strictEq b a := by
  cases a <;> cases b <;> simp [JSVal.strictEq, eq_comm]

lemma strictEq_num_str (n : Int) (s : String) :
    JSVal.strictEq (.vnum n) (.vstr s) = false := rfl

lemma strictEq_str_num (s : String) (n : Int) :
    JSVal.strictEq (.vstr s) (.vnum n) = false := rfl

lemma sameKey_symm (a b : Obj) : sameKey a b = sameKey b a := by
  unfold sameKey keyMatches
  rw [strictEq_symm (getF a "id") (getF b "id"),
    strictEq_symm (getF a "media_type") (getF b "media_type")]

lemma keyFaithful_watchlistRecord : keyFaithful watchlistRecord := fun _ _ => ⟨rfl, rfl⟩

lemma keyFaithful_favoritesRecord : keyFaithful favoritesRecord := fun _ _ => ⟨rfl, rfl⟩

lemma keyFaithful_watchedRecord : keyFaithful watchedRecord := fun _ _ => ⟨rfl, rfl⟩

lemma uniqueKeys_append_one (l : List Obj) (r : Obj) :
    uniqueKeys (l ++ [r]) = (uniqueKeys l && !(l.any (fun i => sameKey i r))) := by
  induction l with
  | nil => simp [uniqueKeys]
  | cons x l ih =>
    simp only [List.cons_append, uniqueKeys, List.append_eq, List.any_append, List.any_cons,
      List.any_nil, ih]
    rw [sameKey_symm r x]
    cases l.any (fun i => sameKey i x) <;> cases l.any (fun i => sameKey i r) <;>
      cases sameKey x r <;> cases uniqueKeys l <;> simp

/-! ### Case analysis of the mutation operations -/

lemma addCore_of_dup {m : Medium} {key : String} (mk : Obj → String → Obj)
    (item : Obj) (now : String) (hwf : svWF (m.getRaw key) = true)
    (hany : (itemsOf m key).any
      (fun i => keyMatches i (getF item "id") (getF item "media_type")) = true) :
    addCore key mk item now m = .ok (false, m) := by
  rw [addCore_eq_of_WF mk item now hwf, hany]
  simp

lemma addCore_of_new_fail {m : Medium} {key : String} (mk : Obj → String → Obj)
    (item : Obj) (now : String) (hwf : svWF (m.getRaw key) = true)
    (hany : (itemsOf m key).any
      (fun i => keyMatches i (getF item "id") (getF item "media_type")) = false)
    (hb : (m.available && m.writeOk) = false) :
    addCore key mk item now m = .ok (false, m) := by
  rw [addCore_eq_of_WF mk item now hwf, hany, saveItems_of_fail _ _ hb]
  simp

lemma addCore_of_new_ok {m : Medium} {key : String} (mk : Obj → String → Obj)
    (item : Obj) (now : String) (hwf : svWF (m.getRaw key) = true)
    (hany : (itemsOf m key).any
      (fun i => keyMatches i (getF item "id") (getF item "media_type")) = false)
    (ha : m.available = true) (hw : m.writeOk = true) :
    addCore key mk item now m =
      .ok (true, m.setRaw key (.json (.arr (itemsOf m key ++ [mk item now])))) := by
  rw [addCore_eq_of_WF mk item now hwf, hany, saveItems_of_ok _ _ ha hw]
  simp

/-- Trichotomy of `addCore` on a well-formed slot: duplicate no-op, failed
write no-op, or successful append. -/
lemma addCore_spec {m : Medium} {key : String} (mk : Obj → String → Obj)
    (item : Obj) (now : String) (hwf : svWF (m.getRaw key) = true) :
    ((itemsOf m key).any
        (fun i => keyMatches i (getF item "id") (getF item "media_type")) = true ∧
      addCore key mk item now m = .ok (false, m)) ∨
    ((itemsOf m key).any
        (fun i => keyMatches i (getF item "id") (getF item "media_type")) = false ∧
      (((m.available && m.writeOk) = false ∧ addCore key mk item now m = .ok (false, m)) ∨
       (m.available = true ∧ m.writeOk = true ∧
        addCore key mk item now m =
          .ok (true, m.setRaw key (.json (.arr (itemsOf m key ++ [mk item now]))))))) := by
  cases hany : (itemsOf m key).any
      (fun i => keyMatches i (getF item "id") (getF item "media_type")) with
  | true => exact Or.inl ⟨rfl, addCore_of_dup mk item now hwf hany⟩
  | false =>
    refine Or.inr ⟨rfl, ?_⟩
    cases hb : (m.available && m.writeOk) with
    | false => exact Or.inl ⟨rfl, addCore_of_new_fail mk item now hwf hany hb⟩
    | true =>
      obtain ⟨ha, hw⟩ := Bool.and_eq_true_iff.mp hb
      exact Or.inr ⟨ha, hw, addCore_of_new_ok mk item now hwf hany ha hw⟩

/-- Dichotomy of `removeCore` on a well-formed slot: failed write no-op, or
successful write of the filtered list. -/
lemma removeCore_spec {m : Medium} {key : String} (id mediaType : JSVal)
    (hwf : svWF (m.getRaw key) = true) :
    ((m.available && m.writeOk) = false ∧ removeCore key id mediaType m = .ok (false, m)) ∨
    (m.available = true ∧ m.writeOk = true ∧
      removeCore key id mediaType m =
        .ok (true, m.setRaw key (.json (.arr
          ((itemsOf m key).filter (fun i => !(keyMatches i id mediaType))))))) := by
  cases hb : (m.available && m.writeOk) with
  | false =>
    refine Or.inl ⟨rfl, ?_⟩
    rw [removeCore_eq_of_WF id mediaType hwf, saveItems_of_fail _ _ hb]
  | true =>
    obtain ⟨ha, hw⟩ := Bool.and_eq_true_iff.mp hb
    refine Or.inr ⟨ha, hw, ?_⟩
    rw [removeCore_eq_of_WF id mediaType hwf, saveItems_of_ok _ _ ha hw]

lemma containsCore_congr {m m' : Medium} {key : String} (id mediaType : JSVal)
    (ha : m'.available = m.available) (hr : m'.getRaw key = m.getRaw key) :
    containsCore key id mediaType m' = containsCore key id mediaType m := by
  unfold containsCore
  rw [getItems_congr ha hr]

lemma ok_pair_inj {α β : Type} {a a' : α} {b b' : β}
    (h : (Except.ok (a, b) : Except Unit (α × β)) = .ok (a', b')) : a = a' ∧ b = b' := by
  injection h with h
  exact ⟨congrArg Prod.fst h, congrArg Prod.snd h⟩

lemma itemsOf_setRaw_self {m : Medium} (key : String) (l : List Obj)
    (ha : m.available = true) :
    itemsOf (m.setRaw key (.json (.arr l))) key = l := by
  unfold itemsOf getItems
  rw [setRaw_available, ha, getRaw_setRaw_self]
  simp [asArr]

lemma itemsOf_setRaw_ne {m : Medium} {key k' : String} (v : StoredValue) (h : key ≠ k') :
    itemsOf (m.setRaw key v) k' = itemsOf m k' :=
  itemsOf_congr (setRaw_available m key v) (getRaw_setRaw_ne m v h)

/-- A successful `addCore` call preserves well-formedness of the medium. -/
lemma addCore_WF {m : Medium} {key : String} {mk : Obj → String → Obj} {item : Obj}
    {now : String} {b : Bool} {m' : Medium} (hWF : m.WF = true)
    (hwf : svWF (m.getRaw key) = true)
    (h : addCore key mk item now m = .ok (b, m')) : m'.WF = true := by
  rcases addCore_spec mk item now hwf with ⟨_, he⟩ | ⟨_, ⟨_, he⟩ | ⟨_, _, he⟩⟩ <;>
    rw [he] at h
  · obtain ⟨_, hm⟩ := ok_pair_inj h; rw [← hm]; exact hWF
  · obtain ⟨_, hm⟩ := ok_pair_inj h; rw [← hm]; exact hWF
  · obtain ⟨_, hm⟩ := ok_pair_inj h; rw [← hm]; exact WF_setRaw_arr _ _ hWF

/-- A successful `addCore` call preserves Identity-Key uniqueness of the
records of its list. -/
lemma addCore_uniqueKeys {m : Medium} {key : String} {mk : Obj → String → Obj}
    (hkf : keyFaithful mk) {item : Obj} {now : String} {b : Bool} {m' : Medium}
    (hwf : svWF (m.getRaw key) = true)
    (hu : uniqueKeys (itemsOf m key) = true)
    (h : addCore key mk item now m = .ok (b, m')) :
    uniqueKeys (itemsOf m' key) = true := by
  rcases addCore_spec mk item now hwf with ⟨_, he⟩ | ⟨hany, ⟨_, he⟩ | ⟨ha, hw, he⟩⟩ <;>
    rw [he] at h
  · obtain ⟨_, hm⟩ := ok_pair_inj h; rw [← hm]; exact hu
  · obtain ⟨_, hm⟩ := ok_pair_inj h; rw [← hm]; exact hu
  · obtain ⟨_, hm⟩ := ok_pair_inj h
    rw [← hm, itemsOf_setRaw_self key _ ha, uniqueKeys_append_one, hu]
    have hkey := hkf item now
    have hfun : (fun i => sameKey i (mk item now)) =
        (fun i => keyMatches i (getF item "id") (getF item "media_type")) := by
      funext i
      simp [sameKey, hkey.1, hkey.2]
    rw [hfun, hany]
    simp

lemma WF_key {m : Medium} {key : String} (h : m.WF = true)
    (hk : key = KEYS_WATCHLIST ∨ key = KEYS_FAVORITES ∨ key = KEYS_WATCHED) :
    svWF (m.getRaw key) = true := by
  rcases hk with rfl | rfl | rfl
  · exact WF_watchlist h
  · exact WF_favorites h
  · exact WF_watched h

lemma runAddsCore_uniqueKeys {key : String} {mk : Obj → String → Obj}
    (hkf : keyFaithful mk)
    (hone : key = KEYS_WATCHLIST ∨ key = KEYS_FAVORITES ∨ key = KEYS_WATCHED)
    (ops : List (Obj × String)) :
    ∀ m : Medium, m.WF = true → uniqueKeys (itemsOf m key) = true →
      uniqueKeys (itemsOf (runAddsCore key mk ops m) key) = true ∧
        (runAddsCore key mk ops m).WF = true := by
  induction ops with
  | nil => intro m hWF hu; exact ⟨hu, hWF⟩
  | cons op rest ih =>
    intro m hWF hu
    obtain ⟨item, now⟩ := op
    simp only [runAddsCore]
    cases hstep : addCore key mk item now m with
    | error e => exact ih m hWF hu
    | ok p =>
      obtain ⟨b, m'⟩ := p
      exact ih m' (addCore_WF hWF (WF_key hWF hone) hstep)
        (addCore_uniqueKeys hkf (WF_key hWF hone) hu hstep)

/-- Second add with the same Identity Key: reports `false` and leaves the
medium exactly as the first call left it. -/
lemma addCore_idem {m : Medium} {key : String} {mk : Obj → String → Obj}
    (hkf : keyFaithful mk) {item : Obj} {now now' : String} {b : Bool} {m₁ : Medium}
    (hwf : svWF (m.getRaw key) = true)
    (h : addCore key mk item now m = .ok (b, m₁)) :
    addCore key mk item now' m₁ = .ok (false, m₁) := by
  rcases addCore_spec mk item now hwf with ⟨hany, he⟩ | ⟨hany, ⟨hb, he⟩ | ⟨ha, hw, he⟩⟩ <;>
    rw [he] at h <;> obtain ⟨hb', hm⟩ := ok_pair_inj h
  · rw [← hm]
    exact addCore_of_dup mk item now' hwf hany
  · rw [← hm]
    exact addCore_of_new_fail mk item now' hwf hany hb
  · rw [← hm]
    set m₂ := m.setRaw key (.json (.arr (itemsOf m key ++ [mk item now]))) with hm₂
    have hwf₂ : svWF (m₂.getRaw key) = true := by
      rw [hm₂, getRaw_setRaw_self]
      exact svWF_arr _
    have hitems : itemsOf m₂ key = itemsOf m key ++ [mk item now] := by
      rw [hm₂]
      exact itemsOf_setRaw_self key _ ha
    apply addCore_of_dup mk item now' hwf₂
    rw [hitems, List.any_append]
    have hkey := hkf item now
    have : keyMatches (mk item now) (getF item "id") (getF item "media_type") = true := by
      unfold keyMatches
      rw [hkey.1, hkey.2, strictEq_refl, strictEq_refl]
      rfl
    simp [this]

lemma addCore_eq_none {m : Medium} {key : String} {mk : Obj → String → Obj}
    {item : Obj} {now : String} (hA : asArr (getItems m key) = none) :
    addCore key mk item now m = .error () := by
  unfold addCore
  rw [hA]

lemma addCore_eq_some {m : Medium} {key : String} {mk : Obj → String → Obj}
    {item : Obj} {now : String} {l : List Obj} (hA : asArr (getItems m key) = some l) :
    addCore key mk item now m =
      if l.any (fun i => keyMatches i (getF item "id") (getF item "media_type"))
      then .ok (false, m)
      else .ok (saveItems m key (l ++ [mk item now])) := by
  unfold addCore
  rw [hA]

lemma removeCore_eq_none {m : Medium} {key : String} {id mediaType : JSVal}
    (hA : asArr (getItems m key) = none) :
    removeCore key id mediaType m = .error () := by
  unfold removeCore
  rw [hA]

lemma removeCore_eq_some {m : Medium} {key : String} {id mediaType : JSVal} {l : List Obj}
    (hA : asArr (getItems m key) = some l) :
    removeCore key id mediaType m =
      .ok (saveItems m key (l.filter (fun i => !(keyMatches i id mediaType)))) := by
  unfold removeCore
  rw [hA]

/-- The medium a successful `addCore` leaves behind is the input medium or
the output of a `saveItems` write on the same key. -/
lemma addCore_result {m : Medium} {key : String} {mk : Obj → String → Obj} {item : Obj}
    {now : String} {b : Bool} {m' : Medium}
    (h : addCore key mk item now m = .ok (b, m')) :
    m' = m ∨ ∃ l, m' = (saveItems m key l).2 := by
  cases hA : asArr (getItems m key) with
  | none => rw [addCore_eq_none hA] at h; exact absurd h (by simp)
  | some l =>
    rw [addCore_eq_some hA] at h
    cases hany : l.any (fun i => keyMatches i (getF item "id") (getF item "media_type")) with
    | true =>
      rw [hany] at h
      simp only [if_true] at h
      exact Or.inl (ok_pair_inj h).2.symm
    | false =>
      rw [hany] at h
      simp only [Bool.false_eq_true, if_false] at h
      refine Or.inr ⟨l ++ [mk item now], ?_⟩
      injection h with h
      rw [h]

/-- The medium a successful `removeCore` leaves behind is the output of a
`saveItems` write on the same key. -/
lemma removeCore_result {m : Medium} {key : String} {id mediaType : JSVal} {b : Bool}
    {m' : Medium} (h : removeCore key id mediaType m = .ok (b, m')) :
    ∃ l, m' = (saveItems m key l).2 := by
  cases hA : asArr (getItems m key) with
  | none => rw [removeCore_eq_none hA] at h; exact absurd h (by simp)
  | some l =>
    rw [removeCore_eq_some hA] at h
    refine ⟨l.filter (fun i => !(keyMatches i id mediaType)), ?_⟩
    injection h with h
    rw [h]

/-- A mutation of one list key does not change membership queries on a
different key. -/
lemma mutation_frame_contains {m m' : Medium} {key other : String} (hne : key ≠ other)
    (hres : m' = m ∨ ∃ l, m' = (saveItems m key l).2) (id mediaType : JSVal) :
    containsCore other id mediaType m' = containsCore other id mediaType m := by
  rcases hres with rfl | ⟨l, rfl⟩
  · rfl
  · exact containsCore_congr id mediaType (saveItems_available m key l)
      (saveItems_getRaw_ne m l hne)

/-- A membership query that comes back `true` pins down the medium: the
probe succeeded and the entry is a record array containing a match. -/
lemma containsCore_true_elim {m : Medium} {key : String} {id mediaType : JSVal}
    (h : containsCore key id mediaType m = .ok true) :
    m.available = true ∧ ∃ l, m.getRaw key = .json (.arr l) ∧
      l.any (fun i => keyMatches i id mediaType) = true := by
  unfold containsCore getItems at h
  cases ha : m.available with
  | false => rw [ha] at h; simp [asArr] at h
  | true =>
    rw [ha] at h
    refine ⟨rfl, ?_⟩
    cases hr : m.getRaw key with
    | absent => rw [hr] at h; simp [asArr] at h
    | malformed => rw [hr] at h; simp [asArr] at h
    | json v =>
      rw [hr] at h
      cases v with
      | nonArray w => simp [asArr] at h
      | arr l =>
        simp only [asArr] at h
        injection h with h
        exact ⟨l, rfl, h⟩

lemma itemsOf_of_slot {m : Medium} {key : String} {l : List Obj}
    (ha : m.available = true) (hr : m.getRaw key = .json (.arr l)) :
    itemsOf m key = l := by
  unfold itemsOf getItems
  rw [ha, hr]
  simp [asArr]

lemma toggleCore_eq_q_error {key : String} {mk : Obj → String → Obj} {qid qmt : JSVal}
    {item : Obj} {now : String} {m : Medium} {e : Unit}
    (hq : containsCore key qid qmt m = .error e) :
    toggleCore key mk qid qmt item now m = .error e := by
  unfold toggleCore
  rw [hq]

lemma toggleCore_eq_q_true {key : String} {mk : Obj → String → Obj} {qid qmt : JSVal}
    {item : Obj} {now : String} {m : Medium}
    (hq : containsCore key qid qmt m = .ok true) :
    toggleCore key mk qid qmt item now m =
      match removeCore key qid qmt m with
      | .error e => .error e
      | .ok (_, m') => .ok (false, m') := by
  unfold toggleCore
  rw [hq]
  rfl

lemma toggleCore_eq_q_false {key : String} {mk : Obj → String → Obj} {qid qmt : JSVal}
    {item : Obj} {now : String} {m : Medium}
    (hq : containsCore key qid qmt m = .ok false) :
    toggleCore key mk qid qmt item now m =
      match addCore key mk item now m with
      | .error e => .error e
      | .ok (_, m') => .ok (true, m') := by
  unfold toggleCore
  rw [hq]
  rfl

/-- The medium a toggle handler leaves behind is the input medium or the
output of a `saveItems` write on the handler's own list key. -/
lemma toggleCore_result {key : String} {mk : Obj → String → Obj} {qid qmt : JSVal}
    {item : Obj} {now : String} {m : Medium} {bb : Bool} {m' : Medium}
    (h : toggleCore key mk qid qmt item now m = .ok (bb, m')) :
    m' = m ∨ ∃ l, m' = (saveItems m key l).2 := by
  cases hq : containsCore key qid qmt m with
  | error e => rw [toggleCore_eq_q_error hq] at h; exact absurd h (by simp)
  | ok inList =>
    cases inList with
    | true =>
      rw [toggleCore_eq_q_true hq] at h
      cases hr : removeCore key qid qmt m with
      | error e =>
        rw [hr] at h
        have h' : (Except.error e : Except Unit (Bool × Medium)) = .ok (bb, m') := h
        exact absurd h' (by simp)
      | ok p =>
        obtain ⟨b2, m2⟩ := p
        rw [hr] at h
        have h' : (Except.ok (false, m2) : Except Unit (Bool × Medium)) = .ok (bb, m') := h
        rw [← (ok_pair_inj h').2]
        exact Or.inr (removeCore_result hr)
    | false =>
      rw [toggleCore_eq_q_false hq] at h
      cases ha2 : addCore key mk item now m with
      | error e =>
        rw [ha2] at h
        have h' : (Except.error e : Except Unit (Bool × Medium)) = .ok (bb, m') := h
        exact absurd h' (by simp)
      | ok p =>
        obtain ⟨b2, m2⟩ := p
        rw [ha2] at h
        have h' : (Except.ok (true, m2) : Except Unit (Bool × Medium)) = .ok (bb, m') := h
        rw [← (ok_pair_inj h').2]
        exact addCore_result ha2

/-- Adding to a list preserves a membership that was already reported
`true` for that list. -/
lemma addCore_preserves_contains {m : Medium} {key : String} {mk : Obj → String → Obj}
    {item : Obj} {now : String} {b : Bool} {m' : Medium} {id mediaType : JSVal}
    (hstep : addCore key mk item now m = .ok (b, m'))
    (h : containsCore key id mediaType m = .ok true) :
    containsCore key id mediaType m' = .ok true := by
  obtain ⟨ha, l, hslot, hany⟩ := containsCore_true_elim h
  have hwf : svWF (m.getRaw key) = true := by rw [hslot]; exact svWF_arr l
  have hl : itemsOf m key = l := itemsOf_of_slot ha hslot
  rcases addCore_spec mk item now hwf with ⟨_, he⟩ | ⟨_, ⟨_, he⟩ | ⟨ha2, hw2, he⟩⟩ <;>
    rw [he] at hstep
  · rw [← (ok_pair_inj hstep).2]; exact h
  · rw [← (ok_pair_inj hstep).2]; exact h
  · rw [← (ok_pair_inj hstep).2]
    have hwf' : svWF ((m.setRaw key
        (.json (.arr (itemsOf m key ++ [mk item now])))).getRaw key) = true := by
      rw [getRaw_setRaw_self]
      exact svWF_arr _
    rw [containsCore_eq_of_WF id mediaType hwf']
    congr 1
    rw [itemsOf_setRaw_self key _ ha, hl, List.any_append, hany]
    rfl

/-- `toggleWatched` preserves a true `isWatched` for every Identity Key. -/
lemma toggleWatched_preserves {data : Obj} {mediaType : JSVal} {now : String}
    {m : Medium} {ob : Option Bool} {m' : Medium} {id mt : JSVal}
    (hstep : toggleWatched data mediaType now m = .ok (ob, m'))
    (h : isWatched id mt m = .ok true) : isWatched id mt m' = .ok true := by
  unfold toggleWatched at hstep
  cases hq : isWatched (getF data "id") mediaType m with
  | error e =>
    rw [hq] at hstep
    have h' : (Except.error e : Except Unit (Option Bool × Medium)) = .ok (ob, m') := hstep
    exact absurd h' (by simp)
  | ok watched =>
    rw [hq] at hstep
    cases watched with
    | true =>
      have h' : (Except.ok (none, m) : Except Unit (Option Bool × Medium)) =
          .ok (ob, m') := hstep
      rw [← (ok_pair_inj h').2]
      exact h
    | false =>
      cases ha2 : addToWatched (watchedItem data mediaType) now m with
      | error e =>
        rw [ha2] at hstep
        have h' : (Except.error e : Except Unit (Option Bool × Medium)) = .ok (ob, m') := hstep
        exact absurd h' (by simp)
      | ok p =>
        obtain ⟨b2, m2⟩ := p
        rw [ha2] at hstep
        have h' : (Except.ok (some true, m2) : Except Unit (Option Bool × Medium)) =
            .ok (ob, m') := hstep
        rw [← (ok_pair_inj h').2]
        have ha2' : addCore KEYS_WATCHED watchedRecord (watchedItem data mediaType) now m =
            .ok (b2, m2) := ha2
        have hco : containsCore KEYS_WATCHED id mt m = .ok true := h
        exact addCore_preserves_contains ha2' hco

/-- Every exposed toggle action preserves a true `isWatched`. -/
lemma stepUI_isWatched (op : UIOp) {m : Medium} {id mediaType : JSVal}
    (h : isWatched id mediaType m = .ok true) :
    isWatched id mediaType (stepUI op m) = .ok true := by
  have frame : ∀ {key : String} (hne : key ≠ KEYS_WATCHED) {m' : Medium},
      (m' = m ∨ ∃ l, m' = (saveItems m key l).2) →
      isWatched id mediaType m' = .ok true := by
    intro key hne m' hres
    show containsCore KEYS_WATCHED id mediaType m' = .ok true
    rw [mutation_frame_contains hne hres id mediaType]
    exact h
  cases op with
  | wlMain item now =>
    simp only [stepUI]
    cases hstep : handleWatchlistToggle item now m with
    | error e => exact h
    | ok p =>
      obtain ⟨bb, m'⟩ := p
      exact frame (by decide) (toggleCore_result hstep)
  | favMain item now =>
    simp only [stepUI]
    cases hstep : handleFavoriteToggle item now m with
    | error e => exact h
    | ok p =>
      obtain ⟨bb, m'⟩ := p
      exact frame (by decide) (toggleCore_result hstep)
  | wlDetails data mediaType2 now =>
    simp only [stepUI]
    cases hstep : toggleWatchlist data mediaType2 now m with
    | error e => exact h
    | ok p =>
      obtain ⟨bb, m'⟩ := p
      exact frame (by decide) (toggleCore_result hstep)
  | favDetails data mediaType2 now =>
    simp only [stepUI]
    cases hstep : toggleFavorite data mediaType2 now m with
    | error e => exact h
    | ok p =>
      obtain ⟨bb, m'⟩ := p
      exact frame (by decide) (toggleCore_result hstep)
  | watchedDetails data mediaType2 now =>
    simp only [stepUI]
    cases hstep : toggleWatched data mediaType2 now m with
    | error e => exact h
    | ok p =>
      obtain ⟨ob, m'⟩ := p
      exact toggleWatched_preserves hstep h

lemma filter_eq_self_of_any_false {l : List Obj} {p : Obj → Bool} (h : l.any p = false) :
    l.filter (fun i => !(p i)) = l := by
  induction l with
  | nil => rfl
  | cons x l ih =>
    simp only [List.any_cons, Bool.or_eq_false_iff] at h
    simp [List.filter_cons, h.1, ih h.2]

/-- A successful add (`true` result) appends exactly the constructed
record. -/
lemma addCore_true_items {m : Medium} {key : String} {mk : Obj → String → Obj}
    {item : Obj} {now : String} {m₁ : Medium}
    (hwf : svWF (m.getRaw key) = true)
    (h : addCore key mk item now m = .ok (true, m₁)) :
    itemsOf m₁ key = itemsOf m key ++ [mk item now] := by
  rcases addCore_spec mk item now hwf with ⟨_, he⟩ | ⟨_, ⟨_, he⟩ | ⟨ha, hw, he⟩⟩ <;>
    rw [he] at h
  · exact Bool.noConfusion (ok_pair_inj h).1
  · exact Bool.noConfusion (ok_pair_inj h).1
  · rw [← (ok_pair_inj h).2]
    exact itemsOf_setRaw_self key _ ha

/-- A string-id query matches nothing in a list whose record ids are all
numbers. -/
lemma any_false_of_ids_num {l : List Obj} {s : String} {mt : JSVal}
    (hids : ∀ r ∈ l, ∃ k, getF r "id" = .vnum k) :
    l.any (fun i => keyMatches i (.vstr s) mt) = false := by
  induction l with
  | nil => rfl
  | cons x l ih =>
    obtain ⟨k, hk⟩ := hids x (by simp)
    have hx : keyMatches x (.vstr s) mt = false := by
      unfold keyMatches
      rw [hk]
      simp [JSVal.strictEq]
    simp only [List.any_cons, hx, Bool.false_or]
    exact ih (fun r hr => hids r (by simp [hr]))

/-! ### Claim theorems -/

/-- C1: For every list (watchlist, favorites, watched), any sequence of add
calls — with repeated Identity Keys allowed — preserves
at-most-one-record-per-Identity-Key; an add whose Identity Key is already
present returns `false` and leaves the list unchanged; and `add(L, x)`
immediately followed by `add(L, x)` leaves the state produced by the first
call, the second call reporting `false`. -/
theorem c1_uniqueness_and_idempotent_add
    (m : Medium) (ops : List (Obj × String)) (item : Obj) (now now' : String)
    (hWF : m.WF = true) :
    (uniqueKeys (itemsOf m KEYS_WATCHLIST) = true →
      uniqueKeys (itemsOf (runAddsWatchlist ops m) KEYS_WATCHLIST) = true) ∧
    (uniqueKeys (itemsOf m KEYS_FAVORITES) = true →
      uniqueKeys (itemsOf (runAddsFavorites ops m) KEYS_FAVORITES) = true) ∧
    (uniqueKeys (itemsOf m KEYS_WATCHED) = true →
      uniqueKeys (itemsOf (runAddsWatched ops m) KEYS_WATCHED) = true) ∧
    (isInWatchlist (getF item "id") (getF item "media_type") m = .ok true →
      addToWatchlist item now m = .ok (false, m)) ∧
    (∀ b m₁, addToWatchlist item now m = .ok (b, m₁) →
      addToWatchlist item now' m₁ = .ok (false, m₁)) ∧
    (∀ b m₁, addToFavorites item now m = .ok (b, m₁) →
      addToFavorites item now' m₁ = .ok (false, m₁)) ∧
    (∀ b m₁, addToWatched item now m = .ok (b, m₁) →
      addToWatched item now' m₁ = .ok (false, m₁)) ∧
    (isInFavorites (getF item "id") (getF item "media_type") m = .ok true →
      addToFavorites item now m = .ok (false, m)) ∧
    (isWatched (getF item "id") (getF item "media_type") m = .ok true →
      addToWatched item now m = .ok (false, m)) := by
  refine ⟨?_, ?_, ?_, ?_, ?_, ?_, ?_, ?_, ?_⟩
  · intro hu
    exact (runAddsCore_uniqueKeys keyFaithful_watchlistRecord (Or.inl rfl) ops m hWF hu).1
  · intro hu
    exact (runAddsCore_uniqueKeys keyFaithful_favoritesRecord (Or.inr (Or.inl rfl))
      ops m hWF hu).1
  · intro hu
    exact (runAddsCore_uniqueKeys keyFaithful_watchedRecord (Or.inr (Or.inr rfl))
      ops m hWF hu).1
  · intro hc
    have hwf := WF_watchlist hWF
    unfold isInWatchlist at hc
    rw [containsCore_eq_of_WF _ _ hwf] at hc
    injection hc with hc
    exact addCore_of_dup _ item now hwf hc
  · intro b m₁ h
    exact addCore_idem keyFaithful_watchlistRecord (WF_watchlist hWF) h
  · intro b m₁ h
    exact addCore_idem keyFaithful_favoritesRecord (WF_favorites hWF) h
  · intro b m₁ h
    exact addCore_idem keyFaithful_watchedRecord (WF_watched hWF) h
  · intro hc
    have hwf := WF_favorites hWF
    unfold isInFavorites at hc
    rw [containsCore_eq_of_WF _ _ hwf] at hc
    injection hc with hc
    exact addCore_of_dup _ item now hwf hc
  · intro hc
    have hwf := WF_watched hWF
    unfold isWatched at hc
    rw [containsCore_eq_of_WF _ _ hwf] at hc
    injection hc with hc
    exact addCore_of_dup _ item now hwf hc

/-- C1 witness: a concrete double add of the same item into an empty
watchlist keeps the list duplicate-free, and the second call is a reported
no-op on the state the first call produced. -/
theorem c1_witness :
    uniqueKeys (itemsOf (runAddsWatchlist [(itemA, "t1"), (itemA, "t2")] freshMedium)
      KEYS_WATCHLIST) = true ∧
    addToWatchlist itemA "t2" mediumA = .ok (false, mediumA) := by
  constructor
  · exact (c1_uniqueness_and_idempotent_add freshMedium [(itemA, "t1"), (itemA, "t2")]
      itemA "t1" "t2" (by decide)).1 (by decide)
  · exact (c1_uniqueness_and_idempotent_add freshMedium [] itemA "t1" "t2"
      (by decide)).2.2.2.2.1 true mediumA (by decide)

/-- C2 (amended): every load returns the empty sequence when the medium is
unavailable, when the entry is absent, and when the stored text is not valid
JSON; but stored text that parses to a JSON value that is not an array is
returned as parsed, not degraded to the empty sequence. -/
theorem c2_load_degrade_amended (m : Medium) :
    (m.available = false →
      getWatchlist m = .arr [] ∧ getFavorites m = .arr [] ∧ getWatched m = .arr []) ∧
    (m.available = true →
      ((m.getRaw KEYS_WATCHLIST = .absent ∨ m.getRaw KEYS_WATCHLIST = .malformed) →
        getWatchlist m = .arr []) ∧
      ((m.getRaw KEYS_FAVORITES = .absent ∨ m.getRaw KEYS_FAVORITES = .malformed) →
        getFavorites m = .arr []) ∧
      ((m.getRaw KEYS_WATCHED = .absent ∨ m.getRaw KEYS_WATCHED = .malformed) →
        getWatched m = .arr []) ∧
      (∀ v, m.getRaw KEYS_WATCHLIST = .json v → getWatchlist m = v)) := by
  constructor
  · intro ha
    unfold getWatchlist getFavorites getWatched getItems
    simp [ha]
  · intro ha
    refine ⟨?_, ?_, ?_, ?_⟩
    · rintro (hr | hr) <;> (unfold getWatchlist getItems; rw [ha, hr]; simp)
    · rintro (hr | hr) <;> (unfold getFavorites getItems; rw [ha, hr]; simp)
    · rintro (hr | hr) <;> (unfold getWatched getItems; rw [ha, hr]; simp)
    · intro v hr
      unfold getWatchlist getItems
      rw [ha, hr]
      simp

/-- C2 witness: on a concrete unavailable medium and on a concrete absent
entry the loads return the empty sequence. -/
theorem c2_witness :
    getWatchlist mediumUnavailable = .arr [] ∧ getWatchlist freshMedium = .arr [] := by
  constructor
  · exact ((c2_load_degrade_amended mediumUnavailable).1 (by decide)).1
  · exact ((c2_load_degrade_amended freshMedium).2 (by decide)).1 (Or.inl (by decide))

/-- C2 counterexample: the stored text `"42"` is valid JSON but not an
ordered sequence of membership records — `JSON.parse` does not throw, so
`getWatchlist` returns the parsed number rather than the empty sequence,
and the membership query on that value then throws a `TypeError` instead of
degrading. -/
theorem c2_counterexample :
    getWatchlist mediumNonArray = .nonArray (.vnum 42) ∧
    getWatchlist mediumNonArray ≠ .arr [] ∧
    isInWatchlist (.vnum 550) (.vstr "movie") mediumNonArray = .error () := by
  decide

/-- C3 (code bug): when the backing mutation reports failure — here the
medium is unavailable, and alternatively the write is quota-rejected — the
main.js card handler and the details.js button handler still flip the
displayed affordance to active. -/
theorem c3_toggle_flips_despite_failure :
    addToWatchlist itemA "t0" mediumUnavailable = .ok (false, mediumUnavailable) ∧
    handleWatchlistToggle itemA "t0" mediumUnavailable = .ok (true, mediumUnavailable) ∧
    toggleWatchlist itemA (.vstr "movie") "t0" mediumUnavailable =
      .ok (true, mediumUnavailable) ∧
    addToWatchlist itemA "t0" mediumQuota = .ok (false, mediumQuota) ∧
    handleWatchlistToggle itemA "t0" mediumQuota = .ok (true, mediumQuota) ∧
    handleFavoriteToggle itemA "t0" mediumQuota = .ok (true, mediumQuota) := by
  decide

/-- C4: for both lists that expose a remove operation, removing an Identity
Key that is not present does not fault, and the subsequently loaded record
sequence is the one loaded before the call. -/
theorem c4_remove_absent_safe (m : Medium) (id mediaType : JSVal) (hWF : m.WF = true) :
    (isInWatchlist id mediaType m = .ok false →
      ∃ b m', removeFromWatchlist id mediaType m = .ok (b, m') ∧
        itemsOf m' KEYS_WATCHLIST = itemsOf m KEYS_WATCHLIST ∧ m'.WF = true) ∧
    (isInFavorites id mediaType m = .ok false →
      ∃ b m', removeFromFavorites id mediaType m = .ok (b, m') ∧
        itemsOf m' KEYS_FAVORITES = itemsOf m KEYS_FAVORITES ∧ m'.WF = true) := by
  constructor
  · intro hc
    have hwf := WF_watchlist hWF
    unfold isInWatchlist at hc
    rw [containsCore_eq_of_WF _ _ hwf] at hc
    injection hc with hc
    rcases @removeCore_spec m KEYS_WATCHLIST id mediaType hwf with
      ⟨hb, he⟩ | ⟨ha, hw, he⟩
    · exact ⟨false, m, he, rfl, hWF⟩
    · refine ⟨true, _, he, ?_, WF_setRaw_arr _ _ hWF⟩
      rw [itemsOf_setRaw_self _ _ ha]
      exact filter_eq_self_of_any_false hc
  · intro hc
    have hwf := WF_favorites hWF
    unfold isInFavorites at hc
    rw [containsCore_eq_of_WF _ _ hwf] at hc
    injection hc with hc
    rcases @removeCore_spec m KEYS_FAVORITES id mediaType hwf with
      ⟨hb, he⟩ | ⟨ha, hw, he⟩
    · exact ⟨false, m, he, rfl, hWF⟩
    · refine ⟨true, _, he, ?_, WF_setRaw_arr _ _ hWF⟩
      rw [itemsOf_setRaw_self _ _ ha]
      exact filter_eq_self_of_any_false hc

/-- C4 witness: removing an absent key from a concrete one-record watchlist
succeeds without fault and leaves the loaded sequence unchanged. -/
theorem c4_witness :
    ∃ b m', removeFromWatchlist (.vnum 999) (.vstr "movie") mediumA = .ok (b, m') ∧
      itemsOf m' KEYS_WATCHLIST = itemsOf mediumA KEYS_WATCHLIST ∧ m'.WF = true :=
  (c4_remove_absent_safe mediumA (.vnum 999) (.vstr "movie") (by decide)).1 (by decide)

/-- C5: every mutation of one list leaves the membership queries of the two
other lists unchanged, for every query key — the three lists are independent
stores. -/
theorem c5_cross_list_independence (m : Medium) (item : Obj) (now : String)
    (id mediaType qid qmt : JSVal) :
    (∀ b m', addToWatchlist item now m = .ok (b, m') →
      isInFavorites qid qmt m' = isInFavorites qid qmt m ∧
        isWatched qid qmt m' = isWatched qid qmt m) ∧
    (∀ b m', removeFromWatchlist id mediaType m = .ok (b, m') →
      isInFavorites qid qmt m' = isInFavorites qid qmt m ∧
        isWatched qid qmt m' = isWatched qid qmt m) ∧
    (∀ b m', addToFavorites item now m = .ok (b, m') →
      isInWatchlist qid qmt m' = isInWatchlist qid qmt m ∧
        isWatched qid qmt m' = isWatched qid qmt m) ∧
    (∀ b m', removeFromFavorites id mediaType m = .ok (b, m') →
      isInWatchlist qid qmt m' = isInWatchlist qid qmt m ∧
        isWatched qid qmt m' = isWatched qid qmt m) ∧
    (∀ b m', addToWatched item now m = .ok (b, m') →
      isInWatchlist qid qmt m' = isInWatchlist qid qmt m ∧
        isInFavorites qid qmt m' = isInFavorites qid qmt m) := by
  refine ⟨?_, ?_, ?_, ?_, ?_⟩
  · intro b m' h
    have hres := addCore_result h
    exact ⟨mutation_frame_contains (by decide) hres qid qmt,
      mutation_frame_contains (by decide) hres qid qmt⟩
  · intro b m' h
    have hres := Or.inr (a := m' = m) (removeCore_result h)
    exact ⟨mutation_frame_contains (by decide) hres qid qmt,
      mutation_frame_contains (by decide) hres qid qmt⟩
  · intro b m' h
    have hres := addCore_result h
    exact ⟨mutation_frame_contains (by decide) hres qid qmt,
      mutation_frame_contains (by decide) hres qid qmt⟩
  · intro b m' h
    have hres := Or.inr (a := m' = m) (removeCore_result h)
    exact ⟨mutation_frame_contains (by decide) hres qid qmt,
      mutation_frame_contains (by decide) hres qid qmt⟩
  · intro b m' h
    have hres := addCore_result h
    exact ⟨mutation_frame_contains (by decide) hres qid qmt,
      mutation_frame_contains (by decide) hres qid qmt⟩

/-- C5 witness: a concrete watchlist add changes neither the favorites nor
the watched membership of the added key. -/
theorem c5_witness :
    isInFavorites (.vnum 550) (.vstr "movie") mediumA =
      isInFavorites (.vnum 550) (.vstr "movie") freshMedium ∧
    isWatched (.vnum 550) (.vstr "movie") mediumA =
      isWatched (.vnum 550) (.vstr "movie") freshMedium :=
  (c5_cross_list_independence freshMedium itemA "t1" (.vnum 550) (.vstr "movie")
    (.vnum 550) (.vstr "movie")).1 true mediumA (by decide)

/-- C6: keystrokes at t = 0, 50, 100, 350 ms into the debounced search
handler with its 300 ms quiescence window produce exactly one search
execution, scheduled by the keystroke at t = 350 to run at t = 650; no
intermediate keystroke triggers an execution. -/
theorem c6_debounce_settling (q0 q1 q2 q3 : String) :
    runHandleSearchInput [(0, q0), (50, q1), (100, q2), (350, q3)] = [(350, 650, q3)] := rfl

/-- C7: a successful add appends a record projecting exactly
`{id, title, poster_path, media_type, vote_average, added_date}` for the
watchlist and favorites — the title falling back from `title` to `name`,
the other fields passed through possibly `undefined` — while the watched
record omits `poster_path`/`vote_average` and carries `watched_date`; the
record constructors depend on no other field of the input item. -/
theorem c7_projection (m : Medium) (item : Obj) (now : String) (hWF : m.WF = true) :
    (∀ m₁, addToWatchlist item now m = .ok (true, m₁) →
      itemsOf m₁ KEYS_WATCHLIST = itemsOf m KEYS_WATCHLIST ++
        [([("id", getF item "id"),
          ("title", jsOr (getF item "title") (getF item "name")),
          ("poster_path", getF item "poster_path"),
          ("media_type", getF item "media_type"),
          ("vote_average", getF item "vote_average"),
          ("added_date", .vstr now)] : Obj)]) ∧
    (∀ m₁, addToFavorites item now m = .ok (true, m₁) →
      itemsOf m₁ KEYS_FAVORITES = itemsOf m KEYS_FAVORITES ++
        [([("id", getF item "id"),
          ("title", jsOr (getF item "title") (getF item "name")),
          ("poster_path", getF item "poster_path"),
          ("media_type", getF item "media_type"),
          ("vote_average", getF item "vote_average"),
          ("added_date", .vstr now)] : Obj)]) ∧
    (∀ m₁, addToWatched item now m = .ok (true, m₁) →
      itemsOf m₁ KEYS_WATCHED = itemsOf m KEYS_WATCHED ++
        [([("id", getF item "id"),
          ("title", jsOr (getF item "title") (getF item "name")),
          ("media_type", getF item "media_type"),
          ("watched_date", .vstr now)] : Obj)]) ∧
    (∀ item₂ : Obj,
      getF item₂ "id" = getF item "id" → getF item₂ "title" = getF item "title" →
      getF item₂ "name" = getF item "name" →
      getF item₂ "poster_path" = getF item "poster_path" →
      getF item₂ "media_type" = getF item "media_type" →
      getF item₂ "vote_average" = getF item "vote_average" →
      watchlistRecord item₂ now = watchlistRecord item now ∧
        favoritesRecord item₂ now = favoritesRecord item now ∧
        watchedRecord item₂ now = watchedRecord item now) := by
  refine ⟨?_, ?_, ?_, ?_⟩
  · intro m₁ h
    exact addCore_true_items (WF_watchlist hWF) h
  · intro m₁ h
    exact addCore_true_items (WF_favorites hWF) h
  · intro m₁ h
    exact addCore_true_items (WF_watched hWF) h
  · intro item₂ h1 h2 h3 h4 h5 h6
    refine ⟨?_, ?_, ?_⟩ <;>
      simp [watchlistRecord, favoritesRecord, watchedRecord, h1, h2, h3, h4, h5, h6]

/-- C7 witness: adding a TV item with no `title` field appends exactly the
six-field record, its title taken from `name`, `poster_path` and
`vote_average` passed through as `undefined`, the extra fields dropped. -/
theorem c7_witness :
    itemsOf mediumB KEYS_WATCHLIST = itemsOf freshMedium KEYS_WATCHLIST ++
      [([("id", .vnum 1399), ("title", .vstr "Game of Thrones"), ("poster_path", .vundef),
        ("media_type", .vstr "tv"), ("vote_average", .vundef), ("added_date", .vstr "t1")] : Obj)] :=
  (c7_projection freshMedium itemB "t1" (by decide)).1 mediumB (by decide)

/-- C8: the watched list is one-way through the exposed toggle interface:
once `isWatched` reports true for an Identity Key, it still reports true
after any sequence of exposed toggle actions — no exposed operation removes
a watched record. -/
theorem c8_watched_one_way (m : Medium) (ops : List UIOp) (id mediaType : JSVal)
    (h : isWatched id mediaType m = .ok true) :
    isWatched id mediaType (runUI ops m) = .ok true := by
  induction ops generalizing m with
  | nil => exact h
  | cons op rest ih =>
    simp only [runUI]
    exact ih (stepUI op m) (stepUI_isWatched op h)

/-- C8 witness: a concrete watched item stays watched across a watchlist
toggle and a repeated mark-as-watched click. -/
theorem c8_witness :
    isWatched (.vnum 550) (.vstr "movie")
      (runUI [.wlMain itemA "t2", .watchedDetails itemA (.vstr "movie") "t3"] mediumW) =
      .ok true :=
  c8_watched_one_way mediumW [.wlMain itemA "t2", .watchedDetails itemA (.vstr "movie") "t3"]
    (.vnum 550) (.vstr "movie") (by decide)

/-- C9: remove hands back exactly the boolean of the underlying save — the
conjunction of availability and writability — independent of whether any
record matched the key, so with an available writable medium it returns
`true` even for an absent key. -/
theorem c9_remove_returns_save_result (m : Medium) (id mediaType : JSVal)
    (hWF : m.WF = true) :
    (∀ b m', removeFromWatchlist id mediaType m = .ok (b, m') →
      b = (m.available && m.writeOk)) ∧
    (∀ b m', removeFromFavorites id mediaType m = .ok (b, m') →
      b = (m.available && m.writeOk)) := by
  constructor
  · intro b m' h
    have hwf := WF_watchlist hWF
    unfold removeFromWatchlist at h
    rw [removeCore_eq_of_WF id mediaType hwf] at h
    injection h with h
    have h1 := congrArg Prod.fst h
    rw [saveItems_fst] at h1
    exact h1.symm
  · intro b m' h
    have hwf := WF_favorites hWF
    unfold removeFromFavorites at h
    rw [removeCore_eq_of_WF id mediaType hwf] at h
    injection h with h
    have h1 := congrArg Prod.fst h
    rw [saveItems_fst] at h1
    exact h1.symm

/-- C9 witness: removing a key that was never present from an empty,
working medium reports `true`. -/
theorem c9_witness : (true : Bool) = (freshMedium.available && freshMedium.writeOk) :=
  (c9_remove_returns_save_result freshMedium (.vnum 999) (.vstr "movie") (by decide)).1
    true mediumEmptyWL (by decide)

/-- C10: Identity-Key matching is strict and type-sensitive: with every
stored watchlist id a number, a string query of the same digits matches
nothing — `contains` answers `false`, cross-type strict equality is `false`
both ways, and an add whose item id is that string appends a new record
instead of being rejected as a duplicate. -/
theorem c10_strict_identity (m : Medium) (s : String) (mediaType : JSVal) (item : Obj)
    (now : String) (hWF : m.WF = true)
    (hids : ∀ r ∈ itemsOf m KEYS_WATCHLIST, ∃ k : Int, getF r "id" = .vnum k)
    (hitem : getF item "id" = .vstr s) :
    isInWatchlist (.vstr s) mediaType m = .ok false ∧
    (∀ n : Int, JSVal.strictEq (.vnum n) (.vstr s) = false ∧
      JSVal.strictEq (.vstr s) (.vnum n) = false) ∧
    (m.available = true → m.writeOk = true →
      addToWatchlist item now m =
        .ok (true, m.setRaw KEYS_WATCHLIST
          (.json (.arr (itemsOf m KEYS_WATCHLIST ++ [watchlistRecord item now]))))) ∧
    (m.available = true → m.writeOk = true →
      ∃ m', removeFromWatchlist (.vstr s) mediaType m = .ok (true, m') ∧
        itemsOf m' KEYS_WATCHLIST = itemsOf m KEYS_WATCHLIST) := by
  have hwf := WF_watchlist hWF
  refine ⟨?_, fun n => ⟨rfl, rfl⟩, ?_, ?_⟩
  · rw [isInWatchlist, containsCore_eq_of_WF _ _ hwf]
    rw [any_false_of_ids_num hids]
  · intro ha hw
    have hany : (itemsOf m KEYS_WATCHLIST).any
        (fun i => keyMatches i (getF item "id") (getF item "media_type")) = false := by
      rw [hitem]
      exact any_false_of_ids_num hids
    exact addCore_of_new_ok _ item now hwf hany ha hw
  · intro ha hw
    rcases @removeCore_spec m KEYS_WATCHLIST (.vstr s) mediaType hwf with
      ⟨hb, he⟩ | ⟨ha2, hw2, he⟩
    · rw [ha, hw] at hb
      exact absurd hb (by decide)
    · refine ⟨_, he, ?_⟩
      rw [itemsOf_setRaw_self _ _ ha]
      exact filter_eq_self_of_any_false (any_false_of_ids_num hids)

/-- C10 witness: the watchlist stores id `550 : number`; the query
`"550" : string` is not found, and adding an item with id `"550"` appends a
second record rather than reporting a duplicate. -/
theorem c10_witness :
    isInWatchlist (.vstr "550") (.vstr "movie") mediumA = .ok false ∧
    addToWatchlist itemC "t2" mediumA =
      .ok (true, mediumA.setRaw KEYS_WATCHLIST
        (.json (.arr (itemsOf mediumA KEYS_WATCHLIST ++ [watchlistRecord itemC "t2"])))) ∧
    (∃ m', removeFromWatchlist (.vstr "550") (.vstr "movie") mediumA = .ok (true, m') ∧
      itemsOf m' KEYS_WATCHLIST = itemsOf mediumA KEYS_WATCHLIST) := by
  have hids : ∀ r ∈ itemsOf mediumA KEYS_WATCHLIST, ∃ k : Int, getF r "id" = .vnum k := by
    intro r hr
    have he : itemsOf mediumA KEYS_WATCHLIST = [watchlistRecord itemA "t1"] := by decide
    rw [he] at hr
    have : r = watchlistRecord itemA "t1" := by simpa using hr
    rw [this]
    exact ⟨550, by decide⟩
  have h := c10_strict_identity mediumA "550" (.vstr "movie") itemC "t2" (by decide)
    hids (by decide)
  exact ⟨h.1, h.2.2.1 rfl rfl, h.2.2.2 rfl rfl⟩

end Cinetrack
